import Mathlib

/-!
Shallow embedding of the VideoPlayerApp sources (the notification and
window-lifecycle composables, and the player view in
`src/videovish-app/src/views/Player.vue`) together with proofs about the
behaviour the specification describes.

Conventions used throughout:
* JavaScript numbers are modelled as exact values (`Nat`, `Int`, `ℚ`);
  where decimal rounding matters (`toFixed`) the rounding is modelled
  explicitly.
* `uuid()` is modelled as a fresh-id supply: the store carries a counter
  and every `add` consumes the next value.  Uniqueness of the generated
  uuid values is an assumption of that library.
* Host (Tauri / DOM) calls that the component code merely forwards to are
  modelled as explicit parameters or as small pure functions documented at
  their definition site.
-/

/-! ### Notification store (the `useNotification` composable) -/

/-- Input record of `useNotification().add` (the `Notification` type of
`types.ts`, reconstructed from its use in the store and §3/§6 of the
specification): display text, severity label, optional timeout. -/
structure Notification where
  text : String
  type : String
  timeout : Option Int

/-- Persisted entry of the notification store (the `NotificationWithId`
type): the input fields plus the generated id.  Ids are modelled as the
naturals handed out by the fresh-id supply. -/
structure NotificationWithId where
  id : Nat
  text : String
  type : String
  timeout : Int

/-- The persisted local-storage value under the key `notifications`,
extended with the fresh-id supply counter that models `uuid()`. -/
structure NotifStore where
  notifications : List NotificationWithId
  nextId : Nat

/-- `Number.MAX_SAFE_INTEGER`. -/
def MAX_SAFE_INTEGER : Int := 9007199254740991

/-- The timeout normalisation performed inside `add`:
`options.timeout === -1 ? Number.MAX_SAFE_INTEGER : options.timeout ?? 0`.
The conditional binds tighter than `??`, so `-1` maps to the maximum,
a missing timeout maps to `0`, and any other value is kept. -/
def normalizeTimeout (timeout : Option Int) : Int :=
  if timeout = some (-1) then MAX_SAFE_INTEGER else timeout.getD 0

/-- `useNotification().add`: generates a fresh id, pushes the new entry to
the end of the persisted list.  The JavaScript function body has no
`return` statement, so its result is `undefined`; that result is modelled
by the second component of type `Option Nat`, which is always `none`. -/
def addNotification (options : Notification) (st : NotifStore) :
    NotifStore × Option Nat :=
  let uniqueId := st.nextId
  ({ notifications := st.notifications ++
      [{ id := uniqueId, text := options.text, type := options.type,
         timeout := normalizeTimeout options.timeout }],
     nextId := st.nextId + 1 },
   none)

/-- `useNotification().remove`: removes the first entry whose id matches
(`findIndex` + `splice(index, 1)`); a no-op when no entry matches
(`findIndex` returns `-1`, modelled by `findIdx?` returning `none`). -/
def removeNotification (id : Nat) (st : NotifStore) : NotifStore :=
  match st.notifications.findIdx? (fun x => x.id == id) with
  | some indexToRemove =>
      { st with notifications := st.notifications.eraseIdx indexToRemove }
  | none => st

/-- A call against the notification store: either `add` with an input
record or `remove` with an id. -/
inductive NotifOp where
  | addOp (options : Notification)
  | removeOp (id : Nat)

/-- Applies one store operation (discarding the return value of `add`, as every
caller in the sources does). -/
def applyNotifOp (st : NotifStore) (op : NotifOp) : NotifStore :=
  match op with
  | .addOp options => (addNotification options st).1
  | .removeOp id => removeNotification id st

/-- Runs a sequence of store operations from a given store state. -/
def runNotifOps (ops : List NotifOp) (st : NotifStore) : NotifStore :=
  ops.foldl applyNotifOp st

/-- The initial persisted value: an empty list, fresh-id supply at 0. -/
def emptyNotifStore : NotifStore := { notifications := [], nextId := 0 }

/-- Store invariant: the recorded ids are strictly increasing in creation
order (hence pairwise distinct, and list order equals `add`-call order),
and every recorded id is below the supply counter. -/
def NotifInv (st : NotifStore) : Prop :=
  st.notifications.Pairwise (fun a b => a.id < b.id)
    ∧ ∀ n ∈ st.notifications, n.id < st.nextId

theorem notifInv_empty : NotifInv emptyNotifStore :=
  ⟨List.Pairwise.nil, fun n hn => by simp [emptyNotifStore] at hn⟩

theorem notifInv_add (o : Notification) (st : NotifStore) (h : NotifInv st) :
    NotifInv (addNotification o st).1 := by
  obtain ⟨hpair, hlt⟩ := h
  refine ⟨?_, ?_⟩
  · show (st.notifications ++
      [({ id := st.nextId, text := o.text, type := o.type,
          timeout := normalizeTimeout o.timeout } : NotificationWithId)]).Pairwise
        (fun a b => a.id < b.id)
    rw [List.pairwise_append]
    refine ⟨hpair, List.pairwise_singleton _ _, ?_⟩
    intro a ha b hb
    rw [List.mem_singleton] at hb
    subst hb
    exact hlt a ha
  · intro n hn
    show n.id < st.nextId + 1
    replace hn : n ∈ st.notifications ++
      [({ id := st.nextId, text := o.text, type := o.type,
          timeout := normalizeTimeout o.timeout } : NotificationWithId)] := hn
    rcases List.mem_append.mp hn with h1 | h2
    · exact Nat.lt_succ_of_lt (hlt n h1)
    · rw [List.mem_singleton] at h2
      subst h2
      exact Nat.lt_succ_self _

theorem notifInv_remove (id : Nat) (st : NotifStore) (h : NotifInv st) :
    NotifInv (removeNotification id st) := by
  obtain ⟨hpair, hlt⟩ := h
  unfold removeNotification
  cases st.notifications.findIdx? (fun x => x.id == id) with
  | none => exact ⟨hpair, hlt⟩
  | some k =>
      refine ⟨hpair.sublist (List.eraseIdx_sublist _ _), ?_⟩
      intro n hn
      exact hlt n ((List.eraseIdx_sublist _ _).subset hn)

theorem notifInv_run (ops : List NotifOp) (st : NotifStore) (h : NotifInv st) :
    NotifInv (runNotifOps ops st) := by
  induction ops generalizing st with
  | nil => exact h
  | cons op ops ih =>
      cases op with
      | addOp o => exact ih _ (notifInv_add o st h)
      | removeOp id => exact ih _ (notifInv_remove id st h)

/-- C6: for every sequence of `add`/`remove` operations starting from the
empty notification store, the persisted list never contains two entries
with the same id, and entries occur in the order of their `add` calls
(witnessed by the creation-ordered ids being strictly increasing along
the list, a property removals preserve). -/
theorem notifications_nodup_ordered (ops : List NotifOp) :
    ((runNotifOps ops emptyNotifStore).notifications.map
        (fun n => n.id)).Nodup
    ∧ (runNotifOps ops emptyNotifStore).notifications.Pairwise
        (fun a b => a.id < b.id) := by
  have h := notifInv_run ops emptyNotifStore notifInv_empty
  refine ⟨?_, h.1⟩
  exact List.Pairwise.map _ (fun a b hab => Nat.ne_of_lt hab) h.1

/-- C2 counterexample: `add` does push an entry carrying the freshly
generated id, but its return value is `undefined` (`none`); the generated
id is not returned to the caller. -/
theorem addNotification_returns_nothing :
    (addNotification { text := "x", type := "error", timeout := some 5 }
        emptyNotifStore).2 = none
    ∧ ((addNotification { text := "x", type := "error", timeout := some 5 }
        emptyNotifStore).1.notifications.map (fun n => n.id)) = [0]
    ∧ (addNotification { text := "x", type := "error", timeout := some 5 }
        emptyNotifStore).2 ≠ some 0 := by
  refine ⟨rfl, rfl, by decide⟩

/-- C2 (amended): `add` generates a fresh id (distinct from every id in
the store, given the store invariant), appends the new entry to the end of
the persisted list, and returns nothing. -/
theorem addNotification_appends_fresh (o : Notification) (st : NotifStore)
    (h : NotifInv st) :
    (addNotification o st).1.notifications
      = st.notifications ++
        [{ id := st.nextId, text := o.text, type := o.type,
           timeout := normalizeTimeout o.timeout }]
    ∧ (∀ n ∈ st.notifications, n.id ≠ st.nextId)
    ∧ (addNotification o st).2 = none := by
  refine ⟨rfl, ?_, rfl⟩
  intro n hn
  exact Nat.ne_of_lt (h.2 n hn)

theorem addNotification_appends_fresh_witness :
    (addNotification { text := "x", type := "error", timeout := some 5 }
        emptyNotifStore).1.notifications
      = emptyNotifStore.notifications ++
        [{ id := emptyNotifStore.nextId, text := "x", type := "error",
           timeout := normalizeTimeout (some 5) }]
    ∧ (addNotification { text := "x", type := "error", timeout := some 5 }
        emptyNotifStore).2 = none :=
  ⟨(addNotification_appends_fresh
      { text := "x", type := "error", timeout := some 5 }
      emptyNotifStore notifInv_empty).1,
   (addNotification_appends_fresh
      { text := "x", type := "error", timeout := some 5 }
      emptyNotifStore notifInv_empty).2.2⟩

/-- C8: the stored timeout is the input normalised by `normalizeTimeout`:
the sentinel `-1` is stored as `Number.MAX_SAFE_INTEGER` and any
non-negative input timeout is stored unchanged. -/
theorem timeout_normalization :
    normalizeTimeout (some (-1)) = MAX_SAFE_INTEGER
    ∧ MAX_SAFE_INTEGER = 9007199254740991
    ∧ ∀ t : Int, 0 ≤ t → normalizeTimeout (some t) = t := by
  refine ⟨rfl, rfl, ?_⟩
  intro t ht
  have hne : ¬ (some t = some (-1)) := by
    simp only [Option.some.injEq]
    omega
  simp [normalizeTimeout, hne]

theorem timeout_normalization_witness :
    normalizeTimeout (some 7) = 7 ∧ (0 : Int) ≤ 7 :=
  ⟨timeout_normalization.2.2 7 (by decide), by decide⟩

/-! ### Playback rate (Player.vue `changePlayrate`) -/

/-- The fixed ascending list of allowed speeds (`PLAYBACK_SPEEDS`,
Player.vue line 37). -/
def PLAYBACK_SPEEDS : List ℚ :=
  [0.07, 0.1, 0.25, 0.5, 0.75, 1, 1.25, 1.5, 1.75, 2, 2.5, 3, 5, 7.5, 10,
   12, 14, 16]

/-- Playback-rate state: the module-level `playbackIndex` variable and the
`rate` ref of `useMediaControls`. -/
structure RateState where
  playbackIndex : Nat
  rate : ℚ

/-- `changePlayrate(direction)` (Player.vue lines 210-226), omitting the
auto-hide timer reset it also performs: a direction of `1` moves the index
up, any other direction moves it down, both clamped to the list bounds,
and `rate` is set to the speed at the new index. -/
def changePlayrate (direction : Nat) (s : RateState) : RateState :=
  let newIndex :=
    if direction = 1 then
      if s.playbackIndex < PLAYBACK_SPEEDS.length - 1 then
        s.playbackIndex + 1
      else s.playbackIndex
    else
      if 0 < s.playbackIndex then s.playbackIndex - 1 else s.playbackIndex
  { playbackIndex := newIndex, rate := PLAYBACK_SPEEDS.getD newIndex 0 }

/-- The initial playback-rate state: `let playbackIndex = 5` and the media
default playback rate 1 of the media element (which is `PLAYBACK_SPEEDS[5]`). -/
def initRateState : RateState := { playbackIndex := 5, rate := 1 }

/-- Runs a sequence of `changePlayrate` calls. -/
def runChangePlayrate (ds : List Nat) (s : RateState) : RateState :=
  ds.foldl (fun s d => changePlayrate d s) s

/-- Rate invariant: the index is inside the speed list and `rate` is the
speed stored at the index. -/
def RateInv (s : RateState) : Prop :=
  s.playbackIndex < PLAYBACK_SPEEDS.length
    ∧ s.rate = PLAYBACK_SPEEDS.getD s.playbackIndex 0

theorem rateInv_init : RateInv initRateState := ⟨by decide, rfl⟩

theorem rateInv_step (d : Nat) (s : RateState) (h : RateInv s) :
    RateInv (changePlayrate d s) := by
  obtain ⟨h1, _⟩ := h
  refine ⟨?_, rfl⟩
  have hlen : PLAYBACK_SPEEDS.length = 18 := rfl
  show (if d = 1 then
      if s.playbackIndex < PLAYBACK_SPEEDS.length - 1 then
        s.playbackIndex + 1
      else s.playbackIndex
    else
      if 0 < s.playbackIndex then s.playbackIndex - 1
      else s.playbackIndex) < PLAYBACK_SPEEDS.length
  rw [hlen] at h1 ⊢
  split
  · split <;> omega
  · split <;> omega

theorem rateInv_run (ds : List Nat) (s : RateState) (h : RateInv s) :
    RateInv (runChangePlayrate ds s) := by
  induction ds generalizing s with
  | nil => exact h
  | cons d ds ih => exact ih _ (rateInv_step d s h)

/-- C3 counterexample: starting from the default index 5, ten consecutive
"increase" calls leave the index at 15, which is not the last index of the
18-entry speed list. -/
theorem changePlayrate_ten_not_last :
    (runChangePlayrate (List.replicate 10 1) initRateState).playbackIndex
      = 15
    ∧ (runChangePlayrate (List.replicate 10 1)
        initRateState).playbackIndex ≠ PLAYBACK_SPEEDS.length - 1 := by
  refine ⟨rfl, by decide⟩

/-- C3 (amended): along every sequence of `changePlayrate` calls from the
initial state the index stays within `[0, len(speeds)-1]` and `rate` is
the speed at the current index; starting at the default index 5, ten
consecutive "increase" calls reach index 15 (not yet the last index), and
twelve are needed to clamp at the last index. -/
theorem changePlayrate_spec :
    (∀ ds : List Nat,
      (runChangePlayrate ds initRateState).playbackIndex
          ≤ PLAYBACK_SPEEDS.length - 1
        ∧ (runChangePlayrate ds initRateState).rate
            = PLAYBACK_SPEEDS.getD
                (runChangePlayrate ds initRateState).playbackIndex 0)
    ∧ (runChangePlayrate (List.replicate 10 1) initRateState).playbackIndex
        = 15
    ∧ (runChangePlayrate (List.replicate 12 1) initRateState).playbackIndex
        = PLAYBACK_SPEEDS.length - 1 := by
  refine ⟨?_, rfl, by decide⟩
  intro ds
  have h := rateInv_run ds initRateState rateInv_init
  exact ⟨Nat.le_pred_of_lt h.1, h.2⟩

/-! ### Relative seek (Player.vue `forwardVideo` / `rewindVideo`) -/

/-- Transport position state: the `currentTime` and `duration` refs of
`useMediaControls`. -/
structure SeekState where
  currentTime : ℚ
  duration : ℚ

/-- `forwardVideo(amount)` (Player.vue lines 164-170), omitting the
transient alert it also shows: moves forward only when the result would
not pass the duration, and otherwise leaves the position unchanged. -/
def forwardVideo (amount : ℚ) (s : SeekState) : SeekState :=
  if s.currentTime ≤ s.duration - amount then
    { s with currentTime := s.currentTime + amount }
  else s

/-- `rewindVideo(amount)` (Player.vue lines 172-180), omitting the
transient alert: moves back by `amount`, clamping at 0. -/
def rewindVideo (amount : ℚ) (s : SeekState) : SeekState :=
  if amount ≤ s.currentTime then
    { s with currentTime := s.currentTime - amount }
  else { s with currentTime := 0 }

/-- C1 counterexample: `forward(10)` at `currentTime = 95`,
`duration = 100` leaves the position at 95; it does not clamp to 100. -/
theorem forwardVideo_no_clamp_at_end :
    (forwardVideo 10 { currentTime := 95, duration := 100 }).currentTime
      = 95
    ∧ (forwardVideo 10 { currentTime := 95, duration := 100 }).currentTime
        ≠ 100 := by
  have h : (forwardVideo 10
      { currentTime := 95, duration := 100 }).currentTime = 95 := by
    unfold forwardVideo
    rw [if_neg (by norm_num)]
  refine ⟨h, ?_⟩
  rw [h]
  norm_num

/-- C1 (amended): starting from a position inside `[0, duration]` and a
non-negative amount, `forwardVideo` and `rewindVideo` keep the position
inside `[0, duration]`; but `forward` refuses to move (rather than
clamping to the duration) when the step would pass the end, so
`forward(10)` at 95/100 yields 95, while `rewind(10)` at 5 clamps to 0. -/
theorem seek_clamped (amount : ℚ) (s : SeekState) (h0 : 0 ≤ amount)
    (h1 : 0 ≤ s.currentTime) (h2 : s.currentTime ≤ s.duration) :
    (0 ≤ (forwardVideo amount s).currentTime
      ∧ (forwardVideo amount s).currentTime ≤ s.duration)
    ∧ (0 ≤ (rewindVideo amount s).currentTime
      ∧ (rewindVideo amount s).currentTime ≤ s.duration)
    ∧ (forwardVideo 10 { currentTime := 95, duration := 100 }).currentTime
        = 95
    ∧ (rewindVideo 10 { currentTime := 5, duration := 100 }).currentTime
        = 0 := by
  have hfwd : (forwardVideo 10
      { currentTime := 95, duration := 100 }).currentTime = 95 := by
    unfold forwardVideo
    rw [if_neg (by norm_num)]
  have hrew : (rewindVideo 10
      { currentTime := 5, duration := 100 }).currentTime = 0 := by
    unfold rewindVideo
    rw [if_neg (by norm_num)]
  refine ⟨?_, ?_, hfwd, hrew⟩
  · unfold forwardVideo
    split
    · rename_i hc
      refine ⟨?_, ?_⟩
      · show 0 ≤ s.currentTime + amount
        linarith
      · show s.currentTime + amount ≤ s.duration
        linarith
    · exact ⟨h1, h2⟩
  · unfold rewindVideo
    split
    · rename_i hc
      refine ⟨?_, ?_⟩
      · show 0 ≤ s.currentTime - amount
        linarith
      · show s.currentTime - amount ≤ s.duration
        linarith
    · exact ⟨le_refl 0, h1.trans h2⟩

theorem seek_clamped_witness :
    (0 ≤ (forwardVideo 10
        { currentTime := 95, duration := 100 }).currentTime
      ∧ (forwardVideo 10
          { currentTime := 95, duration := 100 }).currentTime ≤ 100)
    ∧ (0 ≤ (rewindVideo 10
        { currentTime := 95, duration := 100 }).currentTime
      ∧ (rewindVideo 10
          { currentTime := 95, duration := 100 }).currentTime ≤ 100) := by
  have h := seek_clamped 10 { currentTime := 95, duration := 100 }
    (by norm_num) (by norm_num) (by norm_num)
  exact ⟨h.1, h.2.1⟩

/-! ### Volume step (Player.vue `increaseVolume` / `decreaseVolume`) -/

/-- Models `parseFloat(x.toFixed(1))` on exact rationals: rounding to one
decimal, ties towards the larger candidate (the ECMAScript `toFixed`
tie-break).  `toFixed` on the binary doubles of the source agrees with
this exact-decimal model on every value reachable from the 0.1-grid and
on the concrete inputs used below. -/
def round1 (q : ℚ) : ℚ := ((⌊10 * q + 1 / 2⌋ : ℤ) : ℚ) / 10

/-- `increaseVolume` (Player.vue lines 136-142), omitting the transient
alert: adds 0.1 and re-rounds to one decimal, guarded only by
`volume < 1` - there is no clamp of the result. -/
def increaseVolume (volume : ℚ) : ℚ :=
  if volume < 1 then round1 (volume + 0.1) else volume

/-- `decreaseVolume` (Player.vue lines 144-150), omitting the transient
alert: subtracts 0.1 and re-rounds, guarded only by `volume > 0`. -/
def decreaseVolume (volume : ℚ) : ℚ :=
  if 0 < volume then round1 (volume - 0.1) else volume

theorem round1_eq (q : ℚ) (n : ℤ) (h1 : (n : ℚ) ≤ 10 * q + 1 / 2)
    (h2 : 10 * q + 1 / 2 < n + 1) : round1 q = (n : ℚ) / 10 := by
  unfold round1
  rw [Int.floor_eq_iff.mpr ⟨h1, h2⟩]

/-- Values that already have exactly one decimal are fixed by `round1`. -/
theorem round1_tenths (m : ℤ) : round1 ((m : ℚ) / 10) = (m : ℚ) / 10 := by
  rw [round1_eq ((m : ℚ) / 10) m (by ring_nf; linarith) (by ring_nf; linarith)]

/-- C5 counterexample: at the in-range starting volume 0.99 the result of
`increaseVolume` is 1.1, outside `[0, 1]` - the operation does not clamp. -/
theorem increaseVolume_exceeds_one :
    increaseVolume 0.99 = 1.1 ∧ ¬ increaseVolume 0.99 ≤ 1 := by
  have h : increaseVolume 0.99 = 1.1 := by
    unfold increaseVolume
    rw [if_pos (by norm_num), round1_eq (0.99 + 0.1) 11 (by norm_num)
      (by norm_num)]
    norm_num
  refine ⟨h, ?_⟩
  rw [h]
  norm_num

theorem increaseVolume_grid (k : Nat) (hk : k ≤ 9) :
    increaseVolume ((k : ℚ) / 10) = ((k : ℚ) + 1) / 10 := by
  have hkq : (k : ℚ) ≤ 9 := by exact_mod_cast hk
  have h0 : (0 : ℚ) ≤ (k : ℚ) := Nat.cast_nonneg k
  unfold increaseVolume
  rw [if_pos (by rw [div_lt_one (by norm_num)]; linarith)]
  have harg : (k : ℚ) / 10 + 0.1 = (((k : ℤ) + 1 : ℤ) : ℚ) / 10 := by
    push_cast
    ring_nf
  rw [harg, round1_tenths ((k : ℤ) + 1)]
  push_cast
  ring_nf

theorem decreaseVolume_grid (k : Nat) (hk : 1 ≤ k) :
    decreaseVolume ((k : ℚ) / 10) = ((k : ℚ) - 1) / 10 := by
  have hkq : (1 : ℚ) ≤ (k : ℚ) := by exact_mod_cast hk
  unfold decreaseVolume
  rw [if_pos (by positivity)]
  have harg : (k : ℚ) / 10 - 0.1 = (((k : ℤ) - 1 : ℤ) : ℚ) / 10 := by
    push_cast
    ring_nf
  rw [harg, round1_tenths ((k : ℤ) - 1)]
  push_cast
  ring_nf

/-- C5 (amended): restricted to starting volumes on the 0.1 grid
(`k/10`, `k = 0..10`) the two operations move the volume by the fixed step
0.1 rounded to one decimal and keep it inside `[0, 1]`, and the boundary
values are fixed points (`increaseVolume 1 = 1`, `decreaseVolume 0 = 0`,
so the boundary operations are idempotent); off the grid the result can
leave `[0, 1]`. -/
theorem volume_step_on_grid (k : Nat) (hk : k ≤ 10) :
    (0 ≤ increaseVolume ((k : ℚ) / 10)
      ∧ increaseVolume ((k : ℚ) / 10) ≤ 1)
    ∧ (0 ≤ decreaseVolume ((k : ℚ) / 10)
      ∧ decreaseVolume ((k : ℚ) / 10) ≤ 1)
    ∧ (increaseVolume ((k : ℚ) / 10)
        = if k < 10 then ((k : ℚ) + 1) / 10 else 1)
    ∧ (decreaseVolume ((k : ℚ) / 10)
        = if 0 < k then ((k : ℚ) - 1) / 10 else 0)
    ∧ increaseVolume 1 = 1 ∧ decreaseVolume 0 = 0 := by
  have hkq : (k : ℚ) ≤ 10 := by exact_mod_cast hk
  have h0 : (0 : ℚ) ≤ (k : ℚ) := Nat.cast_nonneg k
  have hinc : increaseVolume ((k : ℚ) / 10)
      = if k < 10 then ((k : ℚ) + 1) / 10 else 1 := by
    by_cases hlt : k < 10
    · rw [if_pos hlt, increaseVolume_grid k (by omega)]
    · rw [if_neg hlt]
      have hk10 : k = 10 := by omega
      subst hk10
      unfold increaseVolume
      rw [if_neg (by norm_num)]
      norm_num
  have hdec : decreaseVolume ((k : ℚ) / 10)
      = if 0 < k then ((k : ℚ) - 1) / 10 else 0 := by
    by_cases hpos : 0 < k
    · rw [if_pos hpos, decreaseVolume_grid k (by omega)]
    · rw [if_neg hpos]
      have hk0 : k = 0 := by omega
      subst hk0
      unfold decreaseVolume
      norm_num
  refine ⟨?_, ?_, hinc, hdec, ?_, ?_⟩
  · rw [hinc]
    by_cases hlt : k < 10
    · rw [if_pos hlt]
      have : (k : ℚ) ≤ 9 := by exact_mod_cast Nat.lt_succ_iff.mp hlt
      constructor <;> [positivity; linarith]
    · rw [if_neg hlt]
      norm_num
  · rw [hdec]
    by_cases hpos : 0 < k
    · rw [if_pos hpos]
      have : (1 : ℚ) ≤ (k : ℚ) := by exact_mod_cast hpos
      constructor <;> linarith
    · rw [if_neg hpos]
      norm_num
  · unfold increaseVolume
    rw [if_neg (by norm_num)]
  · unfold decreaseVolume
    norm_num

theorem volume_step_on_grid_witness :
    (0 ≤ increaseVolume ((3 : Nat) / 10 : ℚ)
      ∧ increaseVolume ((3 : Nat) / 10 : ℚ) ≤ 1)
    ∧ (0 ≤ decreaseVolume ((3 : Nat) / 10 : ℚ)
      ∧ decreaseVolume ((3 : Nat) / 10 : ℚ) ≤ 1)
    ∧ (increaseVolume ((3 : Nat) / 10 : ℚ)
        = if (3 : Nat) < 10 then (((3 : Nat) : ℚ) + 1) / 10 else 1)
    ∧ (decreaseVolume ((3 : Nat) / 10 : ℚ)
        = if 0 < (3 : Nat) then (((3 : Nat) : ℚ) - 1) / 10 else 0)
    ∧ increaseVolume 1 = 1 ∧ decreaseVolume 0 = 0 :=
  volume_step_on_grid 3 (by norm_num)

/-! ### Path and string helpers used by the player view

The Tauri path helpers are not part of this repository; they are modelled
here on `List Char` with structural recursion so that the embedded code
stays fully executable. -/

/-- Splits a character list at the characters satisfying `p` (the
accumulator holds the current segment, reversed). -/
def splitChars (p : Char → Bool) : List Char → List Char → List (List Char)
  | [], acc => [acc.reverse]
  | c :: cs, acc =>
      if p c then acc.reverse :: splitChars p cs []
      else splitChars p cs (c :: acc)

/-- Models the Tauri `basename` host call: the final path segment, i.e.
everything after the last slash or backslash. -/
def basename (path : String) : String :=
  ⟨(splitChars (fun c => c == '/' || c == '\\') path.data []).getLastD []⟩

/-- Models the Tauri `extname` host call (Rust `Path::extension`): the
text after the last dot of the final path segment, WITHOUT the leading
dot (`extname "video.mp4" = "mp4"`).  `setVideoSource` relies on this
dot-less form: it prepends the dot itself when stripping the extension
from the title.  A name with no dot (or a lone leading dot) has no
extension, modelled as the empty string. -/
def extname (path : String) : String :=
  match splitChars (fun c => c == '.') (basename path).data [] with
  | [] => ""
  | [_] => ""
  | first :: rest =>
      if first = [] ∧ rest.length = 1 then "" else ⟨rest.getLastD []⟩

/-- Models `toLowerCase` on the ASCII range (the only characters the
allow-list comparison can match). -/
def lowerChar (c : Char) : Char :=
  if 'A' ≤ c ∧ c ≤ 'Z' then Char.ofNat (c.toNat + 32) else c

/-- String-level lower-casing. -/
def toLowerStr (s : String) : String := ⟨s.data.map lowerChar⟩

/-- JS `s.substring(1, s.length)`: drop the first character. -/
def dropFirst (s : String) : String := ⟨s.data.drop 1⟩

/-- Replaces the first occurrence of `pat` in a character list (JS
`String.prototype.replace` with a string pattern and empty replacement). -/
def replaceFirstChars (pat : List Char) : List Char → List Char
  | [] => []
  | c :: cs =>
      if pat.isPrefixOf (c :: cs) then (c :: cs).drop pat.length
      else c :: replaceFirstChars pat cs

/-- JS `s.replace(pat, "")` for a string pattern: removes the first
occurrence of `pat` only. -/
def replaceFirst (s pat : String) : String := ⟨replaceFirstChars pat.data s.data⟩

/-- The allow-list of supported file extensions (`VALID_EXTENSIONS`,
Player.vue line 38). -/
def VALID_EXTENSIONS : List String := ["ogg", "webm", "mp4", "mkv", "mov", "mp3"]

/-! ### Startup resolution (Player.vue `onBeforeMount`) -/

/-- Embeds the startup decision of `onBeforeMount` (Player.vue lines
464-478): the video opens directly iff the CLI path is non-empty (truthy),
the file exists on disk (`existsOnDisk` models the `exists` host call),
and `extension.toLowerCase().substring(1, extension.toLowerCase().length)`
is in the allow-list; in every other case `showVideoChooser()` runs. -/
def startupOpensDirectly (videoPath : String) (existsOnDisk : Bool) : Bool :=
  videoPath != "" && existsOnDisk
    && VALID_EXTENSIONS.contains (dropFirst (toLowerStr (extname videoPath)))

/-- C4 (code bug): for an existing file `video.mp4` — whose extension is
in the allow-list — the startup check still fails, because `extname`
yields the extension without a leading dot (`"mp4"`) and the code then
strips its first character (`substring(1)` gives `"p4"`, not in the
allow-list).  Hence the claimed direct open never happens and the chooser
is always shown, contradicting the comment in the code ("Sets the video if
the user does Open With or calls the program with a CLI path"). -/
theorem startup_rejects_valid_extension :
    extname "video.mp4" = "mp4"
    ∧ dropFirst (toLowerStr (extname "video.mp4")) = "p4"
    ∧ VALID_EXTENSIONS.contains "mp4" = true
    ∧ startupOpensDirectly "video.mp4" true = false :=
  ⟨rfl, rfl, rfl, rfl⟩

/-! ### Opening a source (Player.vue `setVideoSource`) -/

/-- Models Tauri `convertFileSrc`: rewrites a filesystem path into an
asset-protocol URL the media element can load. -/
def convertFileSrc (filepath : String) : String :=
  "asset://localhost/" ++ filepath

/-- The slice of the player state that `setVideoSource` touches. -/
structure PlayerState where
  historyVideo : Option String
  choosingVideo : Bool
  videoTitle : Option String
  videoSrc : String

/-- The title derivation of `setVideoSource` when no (truthy) title is
supplied: the basename with the first occurrence of `"." + extname`
removed. -/
def deriveTitle (filepath : String) : String :=
  replaceFirst (basename filepath) ⟨'.' :: (extname filepath).data⟩

/-- `setVideoSource` (Player.vue lines 237-259), omitting the
extension warning log and the final `playVideo()` call: derives the title
when the given one is falsy (absent or empty), records the path into the
resume record, leaves the chooser, and loads the converted source. -/
def setVideoSource (filepath : String) (title : Option String)
    (s : PlayerState) : PlayerState :=
  let t :=
    match title with
    | none => deriveTitle filepath
    | some t0 => if t0 = "" then deriveTitle filepath else t0
  { s with
    historyVideo := some filepath
    choosingVideo := false
    videoTitle := some t
    videoSrc := convertFileSrc filepath }

/-- C7: `setVideoSource` is idempotent with respect to title derivation -
called twice with the same path and no explicit title it stores the same
derived title both times, namely the basename with its extension
stripped. -/
theorem setVideoSource_title_idempotent (filepath : String) (s : PlayerState) :
    (setVideoSource filepath none (setVideoSource filepath none s)).videoTitle
      = (setVideoSource filepath none s).videoTitle
    ∧ (setVideoSource filepath none s).videoTitle
        = some (deriveTitle filepath)
    ∧ deriveTitle "/home/user/video.mp4" = "video" :=
  ⟨rfl, rfl, rfl⟩

/-! ### Window-lifecycle helper (the `useWindowClose` composable) -/

/-- The `disableBlur` parameter of `useWindowClose`: either a plain
boolean or a live boolean reference (`Ref<boolean>`), the latter modelled
by its value history over time. -/
inductive DisableBlur where
  | plain (b : Bool)
  | reference (hist : Nat → Bool)

/-- The suppression value observed at time `t`: a plain boolean never
changes; a reference is dereferenced live. -/
def disableBlurAt (f : DisableBlur) (t : Nat) : Bool :=
  match f with
  | .plain b => b
  | .reference hist => hist t

/-- The `tauri://blur` listener body of `useWindowClose` (lines 51-63 of
the composable), as the decision whether `closeWindow()` fires for a blur
event arriving at time `t`: a `Ref` is dereferenced at event time
(`disableBlur.value`), a plain boolean is used as captured. -/
def blurCloses (f : DisableBlur) (t : Nat) : Bool :=
  match f with
  | .plain b => !b
  | .reference hist => !(hist t)

/-- The key-down `eventHandler` of `useWindowClose` (lines 45-49): whether
`closeWindow()` fires for a key event, by the key code alone - the
suppression flag is not consulted. -/
def eventHandlerCloses (code : String) : Bool := code == "Escape"

/-- C9: a blur event closes the window iff the suppression flag,
dereferenced at event time, is inactive; and the Escape key-down always
closes the window, independently of the flag.  The last two conjuncts
exhibit the live dereference: a reference that was active at registration
time 0 but inactive at event time 1 does not suppress the close. -/
theorem windowClose_blur_escape :
    (∀ f t, blurCloses f t = true ↔ disableBlurAt f t = false)
    ∧ (∀ c, eventHandlerCloses c = true ↔ c = "Escape")
    ∧ blurCloses (.reference fun n => n == 0) 1 = true
    ∧ disableBlurAt (.reference fun n => n == 0) 0 = true := by
  refine ⟨?_, ?_, rfl, rfl⟩
  · intro f t
    cases f <;> simp [blurCloses, disableBlurAt]
  · intro c
    simp [eventHandlerCloses]

/-! ### Saving the downloaded video (Player.vue `saveYouTubeVideo`) -/

/-- The externally visible effects of one `saveYouTubeVideo` call: the
warning notifications added, and the `save_youtube_video` invocation (code
passed along, chosen path) if it happens. -/
structure SaveEffects where
  warnings : List Notification
  invoked : Option (Option String × String)

/-- `saveYouTubeVideo` (Player.vue lines 301-339) up to the external save
dialog: `youtubeCode` is the code stored in the resume record, `chosenPath` the
dialog result.  A falsy code adds the warning notification but the
function does NOT return; it returns only when the dialog yields a falsy
path, otherwise it invokes `save_youtube_video` with whatever code it
has.  The result handling of the invocation is outside this model. -/
def saveYouTubeVideo (youtubeCode : Option String)
    (chosenPath : Option String) : SaveEffects :=
  let warns : List Notification :=
    if youtubeCode.getD "" = "" then
      [{ text := "You haven\x27t downloaded a YouTube video yet",
         type := "warning", timeout := some 5000 }]
    else []
  match chosenPath with
  | none => { warnings := warns, invoked := none }
  | some p =>
      if p = "" then { warnings := warns, invoked := none }
      else { warnings := warns, invoked := some (youtubeCode, p) }

/-- C10: invoked with no stored `youtubeCode`, `saveYouTubeVideo` adds the
warning notification but does not return early: whenever the dialog
yields a (truthy) path, the external save command is still invoked, with
the absent code. -/
theorem saveYouTubeVideo_no_code_still_saves (chosenPath : Option String) :
    (saveYouTubeVideo none chosenPath).warnings ≠ []
    ∧ ∀ p, chosenPath = some p → p ≠ "" →
        (saveYouTubeVideo none chosenPath).invoked = some (none, p) := by
  constructor
  · cases chosenPath with
    | none => simp [saveYouTubeVideo]
    | some p =>
        by_cases hp : p = "" <;> simp [saveYouTubeVideo, hp]
  · intro p hp hpe
    subst hp
    simp [saveYouTubeVideo, hpe]

theorem saveYouTubeVideo_no_code_still_saves_witness :
    (saveYouTubeVideo none (some "/tmp/video.mp4")).invoked
      = some (none, "/tmp/video.mp4") :=
  (saveYouTubeVideo_no_code_still_saves (some "/tmp/video.mp4")).2
    "/tmp/video.mp4" rfl (by decide)
